import Mathlib

/-!
Shallow embedding of the FusedL2NNWithGemmGrouped persistent GEMM kernel from
src/cpp/include/raft/distance/detail/fused_l2_nn_gemm_grouped_custom.h.

The tile-scheduling, row-band-flush and pre-loop-prefetch logic of the kernel
is pure integer arithmetic on the problem shape, the threadblock shape
(kM, kN), the grid size (gridDim.x) and the block index (blockIdx.x); it is
embedded here over Nat, with the uint32 wrap-around of the chunk computation
made explicit via reduction modulo 2^32.  Host-side structures (Arguments,
Params, SharedStorage, Status) are embedded as records.
-/

namespace FusedL2NN

/-- Modulus of unsigned 32-bit arithmetic; the chunk computation in the kernel
is performed on uint32 values. -/
def U32 : Nat := 4294967296

/-- Embedding of grid_shape_ (source lines 360-365):
MatrixCoord((m - 1 + kM) / kM, (n - 1 + kN) / kN) in C int arithmetic.
For kM >= 1 and m >= 0 the int expression (m - 1 + kM) / kM equals the Nat
expression (m + kM - 1) / kM, which is used here so that m = 0 is handled
exactly as the C code handles it (the Nat subtraction never truncates since
m + kM >= 1). -/
def grid_shape (kM kN M N : Nat) : Nat × Nat :=
  ((M + kM - 1) / kM, (N + kN - 1) / kN)

/-- Embedding of tile_count_ (source lines 354-356): grid.row() * grid.column(). -/
def tile_count (grid : Nat × Nat) : Nat := grid.1 * grid.2

/-- Embedding of the chunk size computation (source line 404):
uint32 problem_chunk = (tile_count_(grid_shape_(problem_size)) - 1 + gridDim.x) / gridDim.x.
The subtraction of 1 is uint32 arithmetic, so it is modelled as adding
2^32 - 1 and reducing modulo 2^32. -/
def problem_chunk (tiles gridDimx : Nat) : Nat :=
  ((tiles + (U32 - 1) + gridDimx) % U32) / gridDimx

/-- First tile index of a block's chunk: blockIdx.x * problem_chunk, as the
uint32 value that initialises the loop counter (source line 437). -/
def chunk_start (blockIdxx chunk : Nat) : Nat := (blockIdxx * chunk) % U32

/-- Embedding of problem_chunk_end (source line 405):
uint32 problem_chunk_end = blockIdx.x * problem_chunk + problem_chunk. -/
def problem_chunk_end (blockIdxx chunk : Nat) : Nat :=
  (blockIdxx * chunk + chunk) % U32

/-- The tile indices visited by the persistent loop (source line 437):
for (tile_idx = blockIdx.x * problem_chunk; tile_idx < problem_chunk_end; tile_idx++).
Since the counter increases by one from chunk_start while below
problem_chunk_end, the visited indices are exactly this range. -/
def iterated_tiles (blockIdxx chunk : Nat) : List Nat :=
  List.range' (chunk_start blockIdxx chunk)
    (problem_chunk_end blockIdxx chunk - chunk_start blockIdxx chunk)

/-- Row component of threadblock_offset (source line 441):
int(tile_idx / grid_shape.column()) * Mma::Shape::kM. -/
def tb_offset_row (kM gc tile_idx : Nat) : Nat := (tile_idx / gc) * kM

/-- Column component of threadblock_offset (source line 442):
int(tile_idx % grid_shape.column()) * Mma::Shape::kN. -/
def tb_offset_col (kN gc tile_idx : Nat) : Nat := (tile_idx % gc) * kN

/-- Embedding of isNextTile (source line 445): (tile_idx + 1) < problem_chunk_end. -/
def isNextTile (tile_idx chunk_end : Nat) : Bool := decide (tile_idx + 1 < chunk_end)

/-- Embedding of doesRowChange (source line 447):
(threadblock_offset.column() + Mma::Shape::kN) >= problem_size.n(). -/
def doesRowChange (kN N col : Nat) : Bool := decide (N ≤ col + kN)

/-- Embedding of do_gmem_reduce (source line 448):
(doesRowChange || !isNextTile) ? true : false. -/
def do_gmem_reduce (kN N gc chunk_end tile_idx : Nat) : Bool :=
  doesRowChange kN N (tb_offset_col kN gc tile_idx) || !(isNextTile tile_idx chunk_end)

/-- Embedding of the pre-loop column variable (source line 407):
((blockIdx.x * problem_chunk) % grid_shape.column()) * Mma::Shape::kN. -/
def pre_loop_column (kN gc start : Nat) : Nat := (start % gc) * kN

/-- The guard on the pre-loop reduction-state initialisation block
(source line 412): if (column). -/
def pre_loop_init_guard (kN gc start : Nat) : Bool :=
  decide (pre_loop_column kN gc start ≠ 0)

/-- The guard on the pre-loop row-norm prefetch block (source line 421):
if (column). -/
def pre_loop_prefetch_guard (kN gc start : Nat) : Bool :=
  decide (pre_loop_column kN gc start ≠ 0)

/-- Base row of the pre-loop prefetch (source line 422):
((blockIdx.x * problem_chunk) / grid_shape.column()) * Mma::Shape::kM. -/
def prefetch_base_row (kM gc start : Nat) : Nat := (start / gc) * kM

/-- The global row indices read by the pre-loop row-norm prefetch
(source lines 428-432): row_local ranges over [0, kM) and the cp_async at
row + row_local is predicated on guard = (row + row_local) < problem_size.m(),
so exactly the guarded rows are read. -/
def prefetch_rows (kM gc start M : Nat) : List Nat :=
  ((List.range kM).map fun l => prefetch_base_row kM gc start + l).filter
    fun r => decide (r < M)

/-- Subset of cutlass::Status used by this kernel. -/
inductive Status where
  | kSuccess : Status
  | kErrorMisalignedOperand : Status
  | kErrorInvalidProblem : Status
deriving DecidableEq

/-- Embedding of cutlass::gemm::GemmCoord as used here: (m, n, k) extents. -/
structure GemmCoord where
  m : Int
  n : Int
  k : Int
deriving DecidableEq

/-- Embedding of can_implement(GemmCoord) (source lines 340-343): the body is
just return Status::kSuccess. -/
def can_implement (problem_size : GemmCoord) : Status := Status.kSuccess

/-- Embedding of temp_problem_visitor (source lines 123-128). -/
structure temp_problem_visitor where
  problem_count : Int
deriving DecidableEq

/-- Embedding of the Arguments structure (source lines 131-212).  Pointers are
modelled as integer addresses; the epilogue output-op parameter block is an
abstract type P. -/
structure Arguments (P : Type) where
  problem_sizes : GemmCoord
  problem_visitor : temp_problem_visitor
  problem_count : Int
  threadblock_count : Int
  output_op : P
  ptr_A : Int
  ptr_B : Int
  ptr_C : Int
  ptr_Vector : Int
  ptr_Tensor : Int
  lda : Int
  ldb : Int
  ldc : Int
  ldt : Int
  host_problem_sizes : Int

/-- Embedding of can_implement(Arguments) (source line 345): the body is just
return Status::kSuccess. -/
def can_implement_args {P : Type} (args : Arguments P) : Status := Status.kSuccess

/-- Embedding of the Params structure (source lines 219-308).  The iterator
parameter blocks params_A/B/C are constructed from the corresponding strides,
and params_Tensor from (ldt, output_op), exactly as in the constructor. -/
structure Params (P : Type) where
  problem_visitor : temp_problem_visitor
  threadblock_count : Int
  params_A : Int
  params_B : Int
  params_C : Int
  params_Tensor : Int × P
  output_op : P
  ptr_A : Int
  ptr_B : Int
  ptr_C : Int
  ptr_Vector : Int
  ptr_Tensor : Int
  problem_size : GemmCoord
  lda : Int
  ldb : Int
  ldc : Int
  ldt : Int

/-- Embedding of the Params(Arguments const&, void*, int) constructor
(source lines 264-287).  The workspace and tile_count parameters are unused by
the constructor body, as in the source. -/
def Params.ofArguments {P : Type} (args : Arguments P)
    (workspace : Int) (tc : Int) : Params P :=
  { problem_visitor := { problem_count := args.problem_visitor.problem_count }
    threadblock_count := args.threadblock_count
    params_A := args.lda
    params_B := args.ldb
    params_C := args.ldc
    params_Tensor := (args.ldt, args.output_op)
    output_op := args.output_op
    ptr_A := args.ptr_A
    ptr_B := args.ptr_B
    ptr_C := args.ptr_C
    ptr_Vector := args.ptr_Vector
    ptr_Tensor := args.ptr_Tensor
    problem_size := args.problem_sizes
    lda := args.lda
    ldb := args.ldb
    ldc := args.ldc
    ldt := args.ldt }

/-- Embedding of Params::update (source lines 289-307): assigns
threadblock_count, output_op, the five pointers, the four strides and
problem_size from args; the problem_visitor update is commented out in the
source, and params_A/B/C/Tensor are not reassigned. -/
def Params.update {P : Type} (p : Params P) (args : Arguments P) : Params P :=
  { p with
    threadblock_count := args.threadblock_count
    output_op := args.output_op
    ptr_A := args.ptr_A
    ptr_B := args.ptr_B
    ptr_C := args.ptr_C
    ptr_Vector := args.ptr_Vector
    ptr_Tensor := args.ptr_Tensor
    lda := args.lda
    ldb := args.ldb
    ldc := args.ldc
    ldt := args.ldt
    problem_size := args.problem_sizes }

/-- Embedding of epilogue_SharedStorage (source lines 310-313): a wrapper
holding the epilogue working set. -/
structure epilogue_SharedStorage (EpSS : Type) where
  epilogue : EpSS

/-- The anonymous union inside SharedStorage (source lines 317-320): at any
time the storage holds either the main-loop working set or the epilogue
working set. -/
inductive KernelUnion (MmaSS EpSS : Type) where
  | main_loop : MmaSS → KernelUnion MmaSS EpSS
  | epilogue_combined_store : epilogue_SharedStorage EpSS → KernelUnion MmaSS EpSS

/-- Embedding of SharedStorage (source lines 316-327): the union shared by the
main loop and the epilogue, plus the two persistent members reduced_store and
rownorm_store declared outside the union. -/
structure SharedStorage (MmaSS EpSS RedSS RowSS : Type) where
  kernel : KernelUnion MmaSS EpSS
  reduced_store : RedSS
  rownorm_store : RowSS

/-- A write through the main_loop member of the union (as performed by the
matrix-multiply phase, source line 485): replaces the union contents. -/
def SharedStorage.write_main_loop {MmaSS EpSS RedSS RowSS : Type}
    (s : SharedStorage MmaSS EpSS RedSS RowSS) (v : MmaSS) :
    SharedStorage MmaSS EpSS RedSS RowSS :=
  { s with kernel := KernelUnion.main_loop v }

/-- A write through the epilogue member of the union (as performed by the
epilogue phase, source line 548): replaces the union contents. -/
def SharedStorage.write_epilogue {MmaSS EpSS RedSS RowSS : Type}
    (s : SharedStorage MmaSS EpSS RedSS RowSS) (v : EpSS) :
    SharedStorage MmaSS EpSS RedSS RowSS :=
  { s with kernel := KernelUnion.epilogue_combined_store ⟨v⟩ }

/- ------------------------------------------------------------------ -/
/- Arithmetic helper lemmas about ceiling division and the tile grid. -/
/- ------------------------------------------------------------------ -/

lemma ceil_le_iff {k : Nat} (hk : 0 < k) (n m : Nat) :
    (n + k - 1) / k ≤ m ↔ n ≤ m * k := by
  rw [Nat.div_le_iff_le_mul_add_pred hk, Nat.mul_comm m k]
  generalize k * m = a
  omega

lemma le_ceil_mul {k : Nat} (hk : 0 < k) (n : Nat) :
    n ≤ ((n + k - 1) / k) * k := by
  have h : n + k - 1 < ((n + k - 1) / k) * k + k := Nat.lt_div_mul_add hk
  generalize ((n + k - 1) / k) * k = a at h ⊢
  omega

lemma ceil_mul_lt {k : Nat} (hk : 0 < k) (n : Nat) :
    ((n + k - 1) / k) * k < n + k := by
  have h : ((n + k - 1) / k) * k ≤ n + k - 1 := Nat.div_mul_le_self _ _
  generalize ((n + k - 1) / k) * k = a at h ⊢
  omega

lemma one_le_ceil {k : Nat} (hk : 0 < k) {n : Nat} (hn : 0 < n) :
    1 ≤ (n + k - 1) / k := by
  rw [Nat.le_div_iff_mul_le hk]
  omega

/-- Wrap-free evaluation of the uint32 chunk computation when at least one
tile exists and no overflow occurs. -/
lemma problem_chunk_eval {t u : Nat} (ht : 1 ≤ t) (hu : 1 ≤ u)
    (hw : t + u ≤ U32) : problem_chunk t u = (t + u - 1) / u := by
  unfold problem_chunk
  congr 1
  unfold U32 at hw ⊢
  omega

/-- The total extent of all chunks never exceeds t + u - 1. -/
lemma chunks_cover_bound {t u : Nat} (ht : 1 ≤ t) (hu : 1 ≤ u) :
    u * ((t + u - 1) / u) ≤ t + u - 1 :=
  Nat.mul_div_le _ _

/-- Wrap-free evaluation of the persistent loop range when the chunk
boundaries do not overflow uint32. -/
lemma iterated_tiles_eval {i c : Nat} (h : i * c + c < U32) :
    iterated_tiles i c = List.range' (i * c) c := by
  unfold iterated_tiles chunk_start problem_chunk_end
  generalize hA : i * c = A at h ⊢
  have h1 : A % U32 = A := Nat.mod_eq_of_lt (by omega)
  have h2 : (A + c) % U32 = A + c := Nat.mod_eq_of_lt h
  rw [h1, h2]
  congr 1
  omega

/-- For a block index below gridDim, the chunk boundaries do not overflow. -/
lemma chunk_no_overflow {t u i : Nat} (ht : 1 ≤ t) (hu : 1 ≤ u)
    (hw : t + u ≤ U32) (hi : i < u) :
    i * ((t + u - 1) / u) + (t + u - 1) / u < U32 := by
  have hb := chunks_cover_bound ht hu
  have hm : (i + 1) * ((t + u - 1) / u) ≤ u * ((t + u - 1) / u) :=
    Nat.mul_le_mul_right _ (by omega)
  have he : (i + 1) * ((t + u - 1) / u)
      = i * ((t + u - 1) / u) + (t + u - 1) / u := by ring
  generalize i * ((t + u - 1) / u) = a at he hm ⊢
  generalize (i + 1) * ((t + u - 1) / u) = b at he hm
  generalize u * ((t + u - 1) / u) = d at hb hm
  omega

/-- Characterisation of membership in one block's wrap-free range. -/
lemma mem_range_iff {s c m : Nat} :
    m ∈ List.range' s c ↔ s ≤ m ∧ m < s + c := List.mem_range'_1

/-- How the quotient and remainder by g evolve from t to t + 1: the quotient
increments exactly when the remainder of t is g - 1. -/
lemma div_mod_succ {g : Nat} (t : Nat) (hg : 0 < g) :
    ((t + 1) / g = t / g + 1 ↔ t % g = g - 1) ∧
    ((t + 1) / g = t / g ↔ t % g ≠ g - 1) := by
  obtain ⟨q, hq⟩ : ∃ q, t / g = q := ⟨_, rfl⟩
  obtain ⟨q', hq'⟩ : ∃ x, (t + 1) / g = x := ⟨_, rfl⟩
  obtain ⟨r, hr⟩ : ∃ r, t % g = r := ⟨_, rfl⟩
  obtain ⟨r', hr'⟩ : ∃ x, (t + 1) % g = x := ⟨_, rfl⟩
  have h1 := Nat.div_add_mod t g
  have h2 := Nat.div_add_mod (t + 1) g
  rw [hq, hr] at h1
  rw [hq', hr'] at h2
  have h3 : r < g := hr ▸ Nat.mod_lt _ hg
  have h4 : r' < g := hr' ▸ Nat.mod_lt _ hg
  have h5 : q ≤ q' := by
    rw [← hq, ← hq']
    exact Nat.div_le_div_right (by omega)
  have h6 : q' ≤ q + 1 := by
    have h7 := Nat.div_le_div_right (c := g) (show t + 1 ≤ t + g by omega)
    rw [Nat.add_div_right t hg, hq, hq'] at h7
    exact h7
  rw [hq, hq', hr]
  rcases (by omega : q' = q ∨ q' = q + 1) with h | h
  · rw [h] at h2 ⊢
    obtain ⟨A, hA⟩ : ∃ A, g * q = A := ⟨_, rfl⟩
    rw [hA] at h1 h2
    omega
  · rw [h] at h2 ⊢
    rw [Nat.mul_succ] at h2
    obtain ⟨A, hA⟩ : ∃ A, g * q = A := ⟨_, rfl⟩
    rw [hA] at h1 h2
    omega

/-- The doesRowChange test fires exactly on the last column-tile of a
row-band, when the grid column count is the column ceiling of N. -/
lemma rowchange_iff {kN N gc : Nat} (hkN : 0 < kN) (hN : 0 < N)
    (hgc : gc = (N + kN - 1) / kN) (tile : Nat) :
    N ≤ (tile % gc) * kN + kN ↔ tile % gc = gc - 1 := by
  have hgc1 : 0 < gc := by rw [hgc]; exact one_le_ceil hkN hN
  have hmod : tile % gc < gc := Nat.mod_lt _ hgc1
  constructor
  · intro h
    have h2 : N ≤ (tile % gc + 1) * kN := by
      rw [Nat.add_mul, Nat.one_mul]; exact h
    have h3 := (ceil_le_iff hkN N (tile % gc + 1)).mpr h2
    rw [← hgc] at h3
    omega
  · intro h
    have h5 : gc ≤ tile % gc + 1 := by omega
    have h5' : (N + kN - 1) / kN ≤ tile % gc + 1 := by
      rw [← hgc]; exact h5
    have h6 := (ceil_le_iff hkN N (tile % gc + 1)).mp h5'
    rw [Nat.add_mul, Nat.one_mul] at h6
    exact h6

/- ------------------------------------------------------------------ -/
/- Claim theorems.                                                    -/
/- ------------------------------------------------------------------ -/

/-- Claim C1 (amended): with at least one tile, chunk_size equals
ceil(total_tiles / total_units) and every compute unit i < total_units
iterates exactly the half-open range [i*chunk_size, i*chunk_size + chunk_size)
of chunk_size tile indices; the upper bound is not clamped to total_tiles, so
a unit whose range starts at or beyond total_tiles still performs chunk_size
loop iterations, but every tile index at or beyond total_tiles has a row
offset at or beyond M, outside the problem. -/
theorem claim_C1_chunk_ranges (kM kN M N u i c t gc tile : Nat)
    (hkM : 1 ≤ kM) (hkN : 1 ≤ kN) (hM : 1 ≤ M) (hN : 1 ≤ N)
    (hu : 1 ≤ u) (hi : i < u)
    (hgc : gc = (grid_shape kM kN M N).2)
    (ht : t = tile_count (grid_shape kM kN M N))
    (hw : t + u ≤ U32)
    (hc : c = problem_chunk t u)
    (htile : t ≤ tile) :
    c = (t + u - 1) / u ∧ 1 ≤ c ∧
    iterated_tiles i c = List.range' (i * c) c ∧
    (iterated_tiles i c).length = c ∧
    M ≤ tb_offset_row kM gc tile := by
  have hgcN : gc = (N + kN - 1) / kN := by rw [hgc]; rfl
  have hrows : t = ((M + kM - 1) / kM) * gc := by rw [ht, hgc]; rfl
  have hgc1 : 0 < gc := by rw [hgcN]; exact one_le_ceil hkN hN
  have ht1 : 1 ≤ t := by
    rw [hrows]
    exact Nat.mul_pos (one_le_ceil hkM hM) hgc1
  have hceval : c = (t + u - 1) / u := by
    rw [hc]; exact problem_chunk_eval ht1 hu hw
  have hno : i * c + c < U32 := by
    rw [hceval]; exact chunk_no_overflow ht1 hu hw hi
  refine ⟨hceval, ?_, iterated_tiles_eval hno, ?_, ?_⟩
  · rw [hceval]; exact one_le_ceil hu ht1
  · rw [iterated_tiles_eval hno]
    simp [List.length_range']
  · have hdiv : (M + kM - 1) / kM ≤ tile / gc := by
      rw [Nat.le_div_iff_mul_le hgc1, ← hrows]
      exact htile
    show M ≤ (tile / gc) * kM
    calc M ≤ ((M + kM - 1) / kM) * kM := le_ceil_mul hkM M
    _ ≤ (tile / gc) * kM := Nat.mul_le_mul_right kM hdiv

/-- Witness for claim C1: 8x8 problem with 4x4 tiles (4 tiles), 3 units,
unit 2; its chunk of 2 tile indices starts at 4 = total_tiles. -/
theorem claim_C1_chunk_ranges_witness :
    2 = (4 + 3 - 1) / 3 ∧ 1 ≤ 2 ∧
    iterated_tiles 2 2 = List.range' (2 * 2) 2 ∧
    (iterated_tiles 2 2).length = 2 ∧
    8 ≤ tb_offset_row 4 2 4 :=
  claim_C1_chunk_ranges 4 4 8 8 3 2 2 4 2 4 (by decide) (by decide) (by decide)
    (by decide) (by decide) (by decide) (by decide) (by decide) (by decide)
    (by decide) (by decide)

/-- Counterexample to claim C1 as stated: with 4 tiles and 3 units the chunk
size is 2, unit 2 satisfies 2*2 >= 4, yet its persistent loop still performs
two iterations, so it does not receive an empty range. -/
theorem claim_C1_unclamped_cex :
    tile_count (grid_shape 4 4 8 8) = 4 ∧ problem_chunk 4 3 = 2 ∧
    4 ≤ 2 * problem_chunk 4 3 ∧
    iterated_tiles 2 (problem_chunk 4 3) ≠ [] := by decide

/-- Claim C2: for a tile in a unit's range, the reduction state is flushed to
global memory (do_gmem_reduce) exactly when the tile is the last column-tile
of its row-band (equivalently its column offset plus kN reaches N) or the last
tile of the unit's range; in the scenario M = N = 8 with 4x4 tiles and 2 units
owning 2 tiles each, the flush fires exactly at the second tile of each
row-band. -/
theorem claim_C2_flush_rule (kN N gc ce tile : Nat)
    (hkN : 1 ≤ kN) (hN : 1 ≤ N) (hgc : gc = (N + kN - 1) / kN)
    (ht : tile < ce) :
    (do_gmem_reduce kN N gc ce tile = true ↔
      (tile % gc = gc - 1 ∨ tile + 1 = ce)) ∧
    (problem_chunk (tile_count (grid_shape 4 4 8 8)) 2 = 2 ∧
     problem_chunk_end 0 2 = 2 ∧ problem_chunk_end 1 2 = 4 ∧
     do_gmem_reduce 4 8 2 2 0 = false ∧ do_gmem_reduce 4 8 2 2 1 = true ∧
     do_gmem_reduce 4 8 2 4 2 = false ∧ do_gmem_reduce 4 8 2 4 3 = true) := by
  refine ⟨?_, by decide⟩
  unfold do_gmem_reduce doesRowChange isNextTile tb_offset_col
  simp only [Bool.or_eq_true, Bool.not_eq_true', decide_eq_true_eq,
    decide_eq_false_iff_not]
  constructor
  · rintro (h | h)
    · exact Or.inl ((rowchange_iff hkN hN hgc tile).mp h)
    · exact Or.inr (by omega)
  · rintro (h | h)
    · exact Or.inl ((rowchange_iff hkN hN hgc tile).mpr h)
    · exact Or.inr (by omega)

/-- Witness for claim C2: N = 8, kN = 4, grid columns 2, unit 0 with chunk
end 2, at its tile 1. -/
theorem claim_C2_flush_rule_witness :
    (do_gmem_reduce 4 8 2 2 1 = true ↔ (1 % 2 = 2 - 1 ∨ 1 + 1 = 2)) ∧
    (problem_chunk (tile_count (grid_shape 4 4 8 8)) 2 = 2 ∧
     problem_chunk_end 0 2 = 2 ∧ problem_chunk_end 1 2 = 4 ∧
     do_gmem_reduce 4 8 2 2 0 = false ∧ do_gmem_reduce 4 8 2 2 1 = true ∧
     do_gmem_reduce 4 8 2 4 2 = false ∧ do_gmem_reduce 4 8 2 4 3 = true) :=
  claim_C2_flush_rule 4 8 2 2 1 (by decide) (by decide) (by decide) (by decide)

/-- Claim C3 (amended): for any total_tiles >= 1 and total_units >= 1, every
tile index in [0, total_tiles) is iterated by exactly one compute unit; the
units' ranges are however not confined to [0, total_tiles): a unit whose
chunk extends past total_tiles also iterates out-of-range tile indices. -/
theorem claim_C3_exact_cover (t u c tile : Nat) (ht : 1 ≤ t) (hu : 1 ≤ u)
    (hw : t + u ≤ U32) (hc : c = problem_chunk t u) (htile : tile < t) :
    ∃! i, i < u ∧ tile ∈ iterated_tiles i c := by
  have hceval : c = (t + u - 1) / u := by
    rw [hc]; exact problem_chunk_eval ht hu hw
  have hc1 : 1 ≤ c := by rw [hceval]; exact one_le_ceil hu ht
  have htlec : t ≤ u * c := by
    rw [hceval]
    calc t ≤ ((t + u - 1) / u) * u := le_ceil_mul hu t
    _ = u * ((t + u - 1) / u) := Nat.mul_comm _ _
  have hmem : ∀ j, j < u →
      (tile ∈ iterated_tiles j c ↔ j * c ≤ tile ∧ tile < j * c + c) := by
    intro j hj
    rw [iterated_tiles_eval (by rw [hceval]; exact chunk_no_overflow ht hu hw hj)]
    exact mem_range_iff
  have hiu : tile / c < u := by
    rw [Nat.div_lt_iff_lt_mul hc1]
    exact Nat.lt_of_lt_of_le htile htlec
  refine ⟨tile / c, ⟨hiu, ?_⟩, ?_⟩
  · rw [hmem _ hiu]
    exact ⟨Nat.div_mul_le_self tile c, Nat.lt_div_mul_add hc1⟩
  · rintro j ⟨hj, hjmem⟩
    rw [hmem j hj] at hjmem
    have hsucc : (j + 1) * c = j * c + c := by ring
    exact (Nat.div_eq_of_lt_le hjmem.1 (by rw [hsucc]; exact hjmem.2)).symm

/-- Witness for claim C3: 4 tiles, 3 units, tile 2 is iterated by exactly one
unit (unit 1). -/
theorem claim_C3_exact_cover_witness :
    ∃! i, i < 3 ∧ 2 ∈ iterated_tiles i 2 :=
  claim_C3_exact_cover 4 3 2 2 (by decide) (by decide) (by decide) (by decide)
    (by decide)

/-- Counterexample to claim C3 as stated: with 4 tiles and 3 units, unit 2
iterates tile indices outside [0, 4). -/
theorem claim_C3_out_of_range_cex :
    ¬ ∀ x ∈ iterated_tiles 2 (problem_chunk 4 3), x < 4 := by decide

/-- Claim C4: the pre-loop reduction-state initialisation and the pre-loop
row-norm prefetch share the same guard, which holds exactly when the column
offset of the unit's first assigned tile is non-zero (the unit starts
mid-row-band); the prefetch starts at row (first_tile / grid_columns) * kM and
reads exactly the rows of that band that are below M. -/
theorem claim_C4_pre_loop_guard (kM kN M gc i c r : Nat)
    (hkN : 1 ≤ kN) (hiw : i * c < U32) :
    chunk_start i c = i * c ∧
    pre_loop_init_guard kN gc (chunk_start i c)
      = pre_loop_prefetch_guard kN gc (chunk_start i c) ∧
    (pre_loop_prefetch_guard kN gc (chunk_start i c) = true ↔
      tb_offset_col kN gc (i * c) ≠ 0) ∧
    (pre_loop_prefetch_guard kN gc (chunk_start i c) = true ↔
      (i * c) % gc ≠ 0) ∧
    prefetch_base_row kM gc (chunk_start i c) = ((i * c) / gc) * kM ∧
    (r ∈ prefetch_rows kM gc (chunk_start i c) M ↔
      (prefetch_base_row kM gc (i * c) ≤ r ∧
       r < prefetch_base_row kM gc (i * c) + kM ∧ r < M)) := by
  have hs : chunk_start i c = i * c := by
    unfold chunk_start; exact Nat.mod_eq_of_lt hiw
  rw [hs]
  refine ⟨rfl, rfl, ?_, ?_, rfl, ?_⟩
  · unfold pre_loop_prefetch_guard pre_loop_column tb_offset_col
    rw [decide_eq_true_eq]
  · unfold pre_loop_prefetch_guard pre_loop_column
    rw [decide_eq_true_eq]
    have hkN0 : kN ≠ 0 := by omega
    simp [Nat.mul_ne_zero_iff, hkN0]
  · unfold prefetch_rows
    generalize hA : prefetch_base_row kM gc (i * c) = A
    simp only [List.mem_filter, List.mem_map, List.mem_range,
      decide_eq_true_eq]
    constructor
    · rintro ⟨⟨l, hl, rfl⟩, hM⟩
      exact ⟨by omega, by omega, hM⟩
    · rintro ⟨h1, h2, h3⟩
      exact ⟨⟨r - A, by omega, by omega⟩, h3⟩

/-- Witness for claim C4: unit starting at tile 1 in a 2-column grid with
kM = kN = 4 and M = 8; its first tile sits mid-row-band, row 2 is read. -/
theorem claim_C4_pre_loop_guard_witness :
    chunk_start 1 1 = 1 * 1 ∧
    pre_loop_init_guard 4 2 (chunk_start 1 1)
      = pre_loop_prefetch_guard 4 2 (chunk_start 1 1) ∧
    (pre_loop_prefetch_guard 4 2 (chunk_start 1 1) = true ↔
      tb_offset_col 4 2 (1 * 1) ≠ 0) ∧
    (pre_loop_prefetch_guard 4 2 (chunk_start 1 1) = true ↔
      (1 * 1) % 2 ≠ 0) ∧
    prefetch_base_row 4 2 (chunk_start 1 1) = ((1 * 1) / 2) * 4 ∧
    (2 ∈ prefetch_rows 4 2 (chunk_start 1 1) 8 ↔
      (prefetch_base_row 4 2 (1 * 1) ≤ 2 ∧
       2 < prefetch_base_row 4 2 (1 * 1) + 4 ∧ 2 < 8)) :=
  claim_C4_pre_loop_guard 4 4 8 2 1 1 2 (by decide) (by decide)

/-- Claim C5: the capability check can_implement ignores its argument and
returns kSuccess for every input, so no misaligned configuration is rejected
before launch; evaluated here at an arbitrary odd-extent problem size. -/
theorem claim_C5_can_implement_stub :
    can_implement { m := 3, n := 5, k := 7 } = Status.kSuccess ∧
    (∀ ps : GemmCoord, can_implement ps = Status.kSuccess) ∧
    (∀ args : Arguments Unit, can_implement_args args = Status.kSuccess) :=
  ⟨rfl, fun _ => rfl, fun _ => rfl⟩

/-- Claim C6: writes through either member of the shared-memory union leave
the persistent reduced_store and rownorm_store members unchanged, since they
are allocated outside the union. -/
theorem claim_C6_union_frame {MmaSS EpSS RedSS RowSS : Type}
    (s : SharedStorage MmaSS EpSS RedSS RowSS) (v : MmaSS) (w : EpSS) :
    (s.write_main_loop v).reduced_store = s.reduced_store ∧
    (s.write_main_loop v).rownorm_store = s.rownorm_store ∧
    (s.write_epilogue w).reduced_store = s.reduced_store ∧
    (s.write_epilogue w).rownorm_store = s.rownorm_store :=
  ⟨rfl, rfl, rfl, rfl⟩

/-- Claim C7: for M, N >= 1 the grid shape is the componentwise ceiling of
the problem extents by the tile shape, characterised by M <= rows*kM <
M + kM and N <= cols*kN < N + kN, and both components are at least 1, so
every division or modulo by the grid column count has a non-zero divisor. -/
theorem claim_C7_grid_shape_pos (kM kN M N rows cols : Nat)
    (hkM : 1 ≤ kM) (hkN : 1 ≤ kN) (hM : 1 ≤ M) (hN : 1 ≤ N)
    (hr : rows = (grid_shape kM kN M N).1)
    (hc : cols = (grid_shape kM kN M N).2) :
    1 ≤ rows ∧ 1 ≤ cols ∧ M ≤ rows * kM ∧ rows * kM < M + kM ∧
      N ≤ cols * kN ∧ cols * kN < N + kN := by
  subst hr
  subst hc
  exact ⟨one_le_ceil hkM hM, one_le_ceil hkN hN, le_ceil_mul hkM M,
    ceil_mul_lt hkM M, le_ceil_mul hkN N, ceil_mul_lt hkN N⟩

/-- Witness for claim C7: the single-row, single-column boundary case
M = N = 1 with 4x4 tiles gives a 1x1 grid. -/
theorem claim_C7_grid_shape_pos_witness :
    1 ≤ 1 ∧ 1 ≤ 1 ∧ 1 ≤ 1 * 4 ∧ 1 * 4 < 1 + 4 ∧ 1 ≤ 1 * 4 ∧ 1 * 4 < 1 + 4 :=
  claim_C7_grid_shape_pos 4 4 1 1 1 1 (by decide) (by decide) (by decide)
    (by decide) (by decide) (by decide)

/-- Claim C8: the row-major sweep is consistent with the reducer's row-band
boundary detection: between consecutive tile indices the row offset changes
exactly when the earlier tile is the final column-tile of its row-band, which
is exactly when doesRowChange fires on that tile. -/
theorem claim_C8_sweep_consistency (kM kN N gc tile : Nat)
    (hkM : 1 ≤ kM) (hkN : 1 ≤ kN) (hN : 1 ≤ N)
    (hgc : gc = (N + kN - 1) / kN) :
    (tb_offset_row kM gc (tile + 1) ≠ tb_offset_row kM gc tile ↔
      tile % gc = gc - 1) ∧
    (doesRowChange kN N (tb_offset_col kN gc tile) = true ↔
      tile % gc = gc - 1) := by
  have hgc1 : 0 < gc := by rw [hgc]; exact one_le_ceil hkN hN
  have hd := div_mod_succ tile hgc1
  constructor
  · unfold tb_offset_row
    constructor
    · intro h
      by_contra hne
      exact h (by rw [hd.2.mpr hne])
    · intro h
      rw [hd.1.mpr h]
      intro hEq
      have h2 := Nat.eq_of_mul_eq_mul_right (by omega : 0 < kM) hEq
      omega
  · unfold doesRowChange tb_offset_col
    rw [decide_eq_true_eq]
    exact rowchange_iff hkN hN hgc tile

/-- Witness for claim C8: N = 8, kN = 4 gives a 2-column grid; tile 1 is the
final column-tile of its band, so the row offset changes at tile 2. -/
theorem claim_C8_sweep_consistency_witness :
    (tb_offset_row 4 2 (1 + 1) ≠ tb_offset_row 4 2 1 ↔ 1 % 2 = 2 - 1) ∧
    (doesRowChange 4 8 (tb_offset_col 4 2 1) = true ↔ 1 % 2 = 2 - 1) :=
  claim_C8_sweep_consistency 4 4 8 2 1 (by decide) (by decide) (by decide)
    (by decide)

/-- Claim C9: with zero output tiles (M = 0 or N = 0), the uint32 expression
(tile_count - 1 + total_units) wraps to total_units - 1, the chunk size is
(total_units - 1) / total_units = 0, and every unit's persistent loop performs
zero iterations. -/
theorem claim_C9_zero_tile_wrap (kM kN M N u t i : Nat)
    (hkM : 1 ≤ kM) (hkN : 1 ≤ kN) (hu : 1 ≤ u) (huw : u < U32)
    (hz : M = 0 ∨ N = 0) (ht : t = tile_count (grid_shape kM kN M N)) :
    t = 0 ∧ (t + (U32 - 1) + u) % U32 = u - 1 ∧
    problem_chunk t u = (u - 1) / u ∧ problem_chunk t u = 0 ∧
    iterated_tiles i (problem_chunk t u) = [] := by
  have ht0 : t = 0 := by
    rw [ht]; unfold tile_count grid_shape
    rcases hz with h | h
    · subst h
      have h0 : (kM - 1) / kM = 0 := Nat.div_eq_of_lt (by omega)
      simp [h0]
    · subst h
      have h0 : (kN - 1) / kN = 0 := Nat.div_eq_of_lt (by omega)
      simp [h0]
  subst ht0
  have hm : (0 + (U32 - 1) + u) % U32 = u - 1 := by
    unfold U32 at huw ⊢
    omega
  have hpc : problem_chunk 0 u = 0 := by
    unfold problem_chunk
    rw [hm]
    exact Nat.div_eq_of_lt (by omega)
  refine ⟨rfl, hm, ?_, hpc, ?_⟩
  · unfold problem_chunk
    rw [hm]
  · rw [hpc]
    unfold iterated_tiles chunk_start problem_chunk_end
    simp

/-- Witness for claim C9: M = 0 with N = 5, 4x4 tiles and 3 units; unit 7
also performs no iterations. -/
theorem claim_C9_zero_tile_wrap_witness :
    0 = 0 ∧ (0 + (U32 - 1) + 3) % U32 = 3 - 1 ∧
    problem_chunk 0 3 = (3 - 1) / 3 ∧ problem_chunk 0 3 = 0 ∧
    iterated_tiles 7 (problem_chunk 0 3) = [] :=
  claim_C9_zero_tile_wrap 4 4 0 5 3 0 7 (by decide) (by decide) (by decide)
    (by decide) (Or.inl rfl) (by decide)

/-- Claim C10: Params::update copies threadblock_count, output_op, the five
pointers, the four strides and problem_size from the arguments but leaves
problem_visitor untouched, while the Params constructor does set
problem_visitor.problem_count from the arguments. -/
theorem claim_C10_update_frame {P : Type} (p : Params P) (args : Arguments P)
    (w tc : Int) :
    ((p.update args).threadblock_count = args.threadblock_count ∧
     (p.update args).output_op = args.output_op) ∧
    ((p.update args).ptr_A = args.ptr_A ∧ (p.update args).ptr_B = args.ptr_B ∧
     (p.update args).ptr_C = args.ptr_C ∧
     (p.update args).ptr_Vector = args.ptr_Vector ∧
     (p.update args).ptr_Tensor = args.ptr_Tensor) ∧
    ((p.update args).lda = args.lda ∧ (p.update args).ldb = args.ldb ∧
     (p.update args).ldc = args.ldc ∧ (p.update args).ldt = args.ldt ∧
     (p.update args).problem_size = args.problem_sizes) ∧
    (p.update args).problem_visitor = p.problem_visitor ∧
    (Params.ofArguments args w tc).problem_visitor.problem_count
      = args.problem_visitor.problem_count :=
  ⟨⟨rfl, rfl⟩, ⟨rfl, rfl, rfl, rfl, rfl⟩, ⟨rfl, rfl, rfl, rfl, rfl⟩, rfl, rfl⟩

end FusedL2NN
